import Mathlib

set_option maxHeartbeats 1000000

/-!
Verification development for the auto_pdf_reader repository.

The repository consists of three batch-processing scripts:
`PDF_batch_read.py` (extract PDF text, summarize via an LLM HTTP API, write
a derived `.md` file next to each input), `PDF_batch_rename.py` (guess a
title from a PDF's first pages and rename the file accordingly), and
`MD_summarize.py` (aggregate per-document `.md` summaries into one report).

The embedding below models the scripts' pure logic directly and represents
the effectful environment (filesystem, HTTP transport, PDF parser) by
explicit parameters:

* a PDF parser result is an `Option` of the parsed pages (`none` models the
  parser raising an exception);
* the HTTP transport is a function from the request prompt to an
  `Api.ApiBehavior` (timeout, connection error, or a response with a status
  code and a body shape);
* the disk behaviour of the summarizer's output-write step is a
  `WriteBeh` value: the open-then-write-three-segments sequence either
  succeeds, fails when opening the file (nothing is created), or fails
  after the file has been opened and `k` of the three `write` calls have
  completed (Python's `open(path, "w")` creates/truncates the file at open
  time, so this leaves a partially written file behind);
* `os.path.exists` / collision checking for the renamer is a predicate
  `String → Bool`, and the unbounded `while` loop of the collision
  resolver is embedded with an explicit fuel parameter.

Machine text is modelled as Lean `String`/`List Char`.  Character-class
operations are modelled at the code-point level: Python's `\w` regex class
is modelled as ASCII alphanumerics plus underscore (the CJK range
`一-龥` is matched separately, exactly as in the source regex),
`str.strip()` strips ASCII whitespace, and `unicodedata.normalize('NFKC')`
is modelled by a code-point-wise map `nfkcChar` that is the identity on
ASCII and performs representative compatibility mappings (fullwidth forms,
a ligature, a circled digit, the ideographic space); every concrete input
used in the theorems below stays inside the fragment on which this model
agrees with the source's behaviour.
-/

namespace Api

/-- Shape of the JSON body of an HTTP response from the chat-completions
endpoint: either it carries the expected `choices[0].message.content` reply
field, or extracting that field raises.  The two malformed kinds are
distinguished by the exception the extraction raises, because the two
scripts catch different exception classes: `missingField` covers shapes
whose lookup raises `KeyError` (a dict without the `choices`, `message` or
`content` key; a body that fails to parse as JSON also lands here, since
requests' `JSONDecodeError` is a `RequestException` and is caught wherever
`KeyError` is), while `badShape` covers shapes whose extraction raises
some other exception, such as `IndexError` for `{"choices": []}` or
`TypeError` for a mistyped node. -/
inductive ApiBody where
  | wellFormed (content : String)
  | missingField
  | badShape
  deriving DecidableEq

/-- Result of one blocking HTTP POST: a timeout, a connection error, or a
response carrying an HTTP status code and a JSON body. -/
inductive ApiBehavior where
  | timeout
  | connError
  | respond (status : Nat) (body : ApiBody)
  deriving DecidableEq

end Api

namespace PDFBatchRead

/-- Model of `parse_pdf`: the parser yields the pages' texts (`none` when
`fitz.open`/page iteration raises, in which case the source logs and
returns `None`); on success the page texts are joined with newlines. -/
def parse_pdf (pages : Option (List String)) : Option String :=
  pages.map (fun ps => String.intercalate "\n" ps)

/-- The fixed prompt template of `summarize_text`, up to and including the
`Context:` marker; the truncated document text is appended after it. -/
def promptPrefix : String :=
  "\n\nYou are a helpful assistant. Context information is below.\n\nPlease tell me the title of the article, the institution(s) of authors, and the publish year of the article.\n\nThen, using the provided context information, write a comprehensive summary of the artical. Use prior knowledge only if the given context didn" ++
  String.singleton (Char.ofNat 39) ++
  "t provide enough information. Espectially, notice the problem/difficulties that this work deals with, and how it solves the problems.\n\nReply in zh-CN. For key terms or specialized nouns, please provide the original term in parentheses.\n\nContext: \n"

/-- Prompt construction of `summarize_text`: the fixed template followed by
the first 65535 characters of the extracted text (`text[:65535]`). -/
def buildPrompt (text : List Char) : List Char :=
  promptPrefix.data ++ text.take 65535

/-- Model of `summarize_text`: builds the prompt, posts it to the
transport, and extracts `response.json()["choices"][0]["message"]["content"]`
under a bare `except Exception` that returns `None`.  Note that the source
never consults the HTTP status code of a received response. -/
def summarize_text (transport : List Char → Api.ApiBehavior) (text : String) :
    Option String :=
  match transport (buildPrompt text.data) with
  | Api.ApiBehavior.timeout => none
  | Api.ApiBehavior.connError => none
  | Api.ApiBehavior.respond _ body =>
    match body with
    | Api.ApiBody.wellFormed c => some c
    | Api.ApiBody.missingField => none
    | Api.ApiBody.badShape => none

/-- Per-file outcome of `process_single_file`, the keys of the stats dict. -/
inductive Outcome where
  | success
  | failed
  | skipped
  deriving DecidableEq

/-- State of the derived `.md` file on disk. -/
inductive MdFileState where
  | absent
  | present (content : String)
  deriving DecidableEq

/-- Disk behaviour of the output-writing step of `process_single_file`:
the step succeeds, or `open(md_path, "w")` raises (no file is created), or
one of the subsequent `write` calls raises after `k` of the three writes
have completed (`open` with mode `"w"` has already created the file, so
the concatenation of the first `k` segments is left on disk). -/
inductive WriteBeh where
  | ok
  | failOpen
  | failMid (k : Fin 3)
  deriving DecidableEq

/-- First segment written to the output file. -/
def seg1 : String := "# 文献总结\n\n"

/-- Second segment written to the output file (source-file header line). -/
def seg2 (srcName : String) : String := "**源文件**: `" ++ srcName ++ "`\n\n"

/-- Content left on disk when the write sequence fails after `k` completed
`write` calls. -/
def writtenUpTo (srcName summary : String) (k : Fin 3) : String :=
  String.join ([seg1, seg2 srcName, summary].take k.val)

/-- Full content of the output file on success. -/
def fullContent (srcName summary : String) : String :=
  seg1 ++ seg2 srcName ++ summary

/-- Environment of one `process_single_file` call: the parser's result for
this PDF, the HTTP transport, the disk behaviour of the write step, and
the basename of the source file (used in the output header). -/
structure Env where
  pages : Option (List String)
  transport : List Char → Api.ApiBehavior
  writeBeh : WriteBeh
  srcName : String

/-- Observable side-effect kinds of one `process_single_file` call. -/
inductive Eff where
  | parse
  | api
  | write
  deriving DecidableEq

/-- Model of `process_single_file`: skip if the derived `.md` exists,
parse, treat `None`/empty text as failure, summarize, treat `None`/empty
summary as failure, then write the three segments.  Returns the outcome,
the resulting state of the derived file, and the effects performed. -/
def process_single_file (env : Env) (st : MdFileState) :
    Outcome × MdFileState × List Eff :=
  match st with
  | MdFileState.present c => (Outcome.skipped, MdFileState.present c, [])
  | MdFileState.absent =>
    match parse_pdf env.pages with
    | none => (Outcome.failed, MdFileState.absent, [Eff.parse])
    | some text =>
      if text = "" then (Outcome.failed, MdFileState.absent, [Eff.parse])
      else
        match summarize_text env.transport text with
        | none => (Outcome.failed, MdFileState.absent, [Eff.parse, Eff.api])
        | some summary =>
          if summary = "" then
            (Outcome.failed, MdFileState.absent, [Eff.parse, Eff.api])
          else
            match env.writeBeh with
            | WriteBeh.ok =>
              (Outcome.success,
               MdFileState.present (fullContent env.srcName summary),
               [Eff.parse, Eff.api, Eff.write])
            | WriteBeh.failOpen =>
              (Outcome.failed, MdFileState.absent,
               [Eff.parse, Eff.api, Eff.write])
            | WriteBeh.failMid k =>
              (Outcome.failed,
               MdFileState.present (writtenUpTo env.srcName summary k),
               [Eff.parse, Eff.api, Eff.write])

/-- Whether the run of `process_single_file` on an absent artifact reaches
the output-writing step (parse succeeded with nonempty text and the API
call returned a nonempty summary). -/
def reachesWrite (env : Env) : Bool :=
  match parse_pdf env.pages with
  | none => false
  | some text =>
    if text = "" then false
    else
      match summarize_text env.transport text with
      | none => false
      | some summary => !(summary == "")

/-- The stats dictionary of `batch_process_pdfs`. -/
structure Stats where
  success : Nat
  failed : Nat
  skipped : Nat
  deriving DecidableEq

/-- Increment the stats counter selected by an outcome. -/
def addOutcome (s : Stats) : Outcome → Stats
  | Outcome.success => ⟨s.success + 1, s.failed, s.skipped⟩
  | Outcome.failed => ⟨s.success, s.failed + 1, s.skipped⟩
  | Outcome.skipped => ⟨s.success, s.failed, s.skipped + 1⟩

/-- Input of the directory scan: whether the configured root exists, and
the files the recursive walk would yield under it.  `os.walk` on a
nonexistent root silently yields nothing. -/
structure ScanInput where
  rootExists : Bool
  files : List String

/-- Model of the `os.walk` collection loop of `batch_process_pdfs`:
files whose lowercased name ends in `.pdf`. -/
def collectPdfs (inp : ScanInput) : List String :=
  if inp.rootExists then
    inp.files.filter (fun f => List.isSuffixOf ".pdf".data (f.data.map Char.toLower))
  else []

/-- Result of a whole `batch_process_pdfs` run.  The `configError`
constructor exists to express the spec's claimed pre-flight abort; the
source script has no such check and always completes. -/
inductive RunResult where
  | configError
  | completed (stats : Stats)
  deriving DecidableEq

/-- Model of `batch_process_pdfs`: collect the PDFs and fold the per-file
processor's outcomes into the stats; no configuration check is performed. -/
def batch_process_pdfs (inp : ScanInput) (envOf : String → Env)
    (stOf : String → MdFileState) : RunResult :=
  RunResult.completed
    ((collectPdfs inp).foldl
      (fun acc p => addOutcome acc (process_single_file (envOf p) (stOf p)).1)
      ⟨0, 0, 0⟩)

/-- Concrete environment witnessing a mid-write failure: parsing and the
API succeed, but the second `write` call raises after `open` created the
file and the first segment was written. -/
def envC2 : Env :=
  ⟨some ["hello"],
   fun _ => Api.ApiBehavior.respond 200 (Api.ApiBody.wellFormed "sum"),
   WriteBeh.failMid 1, "a.pdf"⟩

/-- Concrete innocuous environment used for batch-level examples. -/
def envDefault : Env :=
  ⟨some ["t"], fun _ => Api.ApiBehavior.timeout, WriteBeh.ok, "x.pdf"⟩

end PDFBatchRead

namespace MDSummarize

/-- Model of `MarkdownAnalyzer.call_llm_api`: one POST; `raise_for_status`
raises (and the `requests.exceptions.RequestException` handler returns
`""`) exactly when the status code is in 400..599; a missing reply field
raises `KeyError`, also handled by returning `""`.  Only those two
exception classes are caught: a body whose field extraction raises any
other exception (e.g. `IndexError` for `{"choices": []}`) propagates
uncaught out of the method, modelled by `Except.error ()`. -/
def call_llm_api (transport : List Char → Api.ApiBehavior) (prompt : String) :
    Except Unit String :=
  match transport prompt.data with
  | Api.ApiBehavior.timeout => Except.ok ""
  | Api.ApiBehavior.connError => Except.ok ""
  | Api.ApiBehavior.respond status body =>
    if 400 ≤ status ∧ status ≤ 599 then Except.ok ""
    else
      match body with
      | Api.ApiBody.wellFormed c => Except.ok c
      | Api.ApiBody.missingField => Except.ok ""
      | Api.ApiBody.badShape => Except.error ()

/-- Model of `read_markdown_files`: each glob hit is a pair of filename and
`some content` (or `none` when reading raises); files whose name starts
with `research_report` and files that fail to read are skipped. -/
def read_markdown_files (files : List (String × Option String)) :
    List (String × String) :=
  files.filterMap (fun f =>
    if List.isPrefixOf "research_report".data f.1.data then none
    else f.2.map (fun c => (f.1, c)))

/-- The `papers_content` accumulation of `analyze_papers`, with ordinal
labels starting at `i`. -/
def papersContentFrom (i : Nat) : List (String × String) → String
  | [] => ""
  | f :: rest =>
    "\n=== 论文 " ++ toString i ++ ": " ++ f.1 ++ " ===\n" ++ f.2 ++ "\n" ++
      papersContentFrom (i + 1) rest

/-- The analysis prompt template of `analyze_papers` around the
concatenated papers content. -/
def analyzePrompt (papers : String) : String :=
  "\n        你是一位专业的研究分析师。请分析以下论文总结内容，生成一份该选题的研究报告。\n        \n        论文内容：\n        " ++
  papers ++
  "\n        \n        请确保报告内容详实、逻辑清晰、分析深入。使用中文撰写。\n        如果涉及引用，请标明引用内容来自哪一篇论文。\n        "

/-- Model of `analyze_papers`: build the combined prompt and issue one API
call; an exception escaping `call_llm_api` propagates (nothing is caught
here). -/
def analyze_papers (transport : List Char → Api.ApiBehavior)
    (mds : List (String × String)) : Except Unit String :=
  call_llm_api transport (analyzePrompt (papersContentFrom 1 mds))

/-- The ordinal-to-filename appendix `main` adds to a nonempty report. -/
def appendixFrom (i : Nat) : List (String × String) → String
  | [] => ""
  | f :: rest => "\n论文 " ++ toString i ++ ": " ++ f.1 ++ "\n" ++ appendixFrom (i + 1) rest

/-- The full appendix text. -/
def appendix (mds : List (String × String)) : String :=
  "\n\n---\n\n参考论文列表（编号与文件名对应）：\n" ++ appendixFrom 1 mds

/-- Result of a whole `main` run of the aggregator.  `crashed` models an
exception propagating uncaught out of `analyze_papers`, terminating the
script with a traceback (`main` installs no exception handler around it). -/
inductive MainResult where
  | errDir
  | errKey
  | noFiles
  | apiEmpty
  | crashed
  | saved (content : String)
  deriving DecidableEq

/-- Model of `main`: the directory check aborts when the configured
directory does not exist; the API-key check compares against the literal
`"your-api-key-here"` (while the shipped placeholder constant is
`"your-api-key"`); then files are read, analyzed, and the report saved
when nonempty, with the appendix appended first. -/
def main (dirExists : Bool) (apiKey : String)
    (files : List (String × Option String))
    (transport : List Char → Api.ApiBehavior) : MainResult :=
  if dirExists = false then MainResult.errDir
  else if apiKey == "your-api-key-here" then MainResult.errKey
  else
    let mds := read_markdown_files files
    if mds.isEmpty then MainResult.noFiles
    else
      match analyze_papers transport mds with
      | Except.error _ => MainResult.crashed
      | Except.ok report =>
        let report2 := if report == "" then report else report ++ appendix mds
        if report2 == "" then MainResult.apiEmpty else MainResult.saved report2

end MDSummarize

namespace PDFBatchRename

/-- Code-point-wise model of `unicodedata.normalize('NFKC', ·)`: identity
on ASCII (NFKC is the identity there) with representative compatibility
mappings for a fullwidth exclamation mark, a fullwidth letter, the `ﬁ`
ligature, a circled digit and the ideographic space. -/
def nfkcChar (c : Char) : List Char :=
  if c = '！' then ['!']
  else if c = 'Ａ' then ['A']
  else if c = 'ﬁ' then ['f', 'i']
  else if c = '①' then ['1']
  else if c = '　' then [' ']
  else [c]

/-- NFKC normalization of a character list, applied code-point-wise. -/
def nfkc (l : List Char) : List Char := (l.map nfkcChar).flatten

/-- Model of the regex class `\w` (word characters): ASCII alphanumerics
and the underscore. -/
def isWordChar (c : Char) : Bool := c == '_' || c.isAlphanum

/-- The explicit CJK range `一-龥` of the source regex. -/
def isCJK (c : Char) : Bool := 0x4e00 ≤ c.toNat && c.toNat ≤ 0x9fa5

/-- Characters kept by `re.sub(r'[^\w一-龥-]', '_', ·)`. -/
def isAllowed (c : Char) : Bool := isWordChar c || isCJK c || c == '-'

/-- The substitution step: every character outside the allowed class is
replaced by an underscore. -/
def substitute (l : List Char) : List Char :=
  l.map (fun c => if isAllowed c then c else '_')

/-- Helper of `collapseU`: `prev` is the last character already emitted;
a further underscore is dropped while the previous character is an
underscore. -/
def collapseAux : Char → List Char → List Char
  | _, [] => []
  | prev, c :: rest =>
    if prev = '_' ∧ c = '_' then collapseAux prev rest
    else c :: collapseAux c rest

/-- The collapsing step `re.sub(r'_+', '_', ·)`: every maximal run of
underscores is contracted to a single underscore. -/
def collapseU : List Char → List Char
  | [] => []
  | c :: rest => c :: collapseAux c rest

/-- Leading-underscore strip (half of `str.strip('_')`). -/
def stripLead (l : List Char) : List Char := l.dropWhile (fun c => c == '_')

/-- Trailing-underscore strip (the other half of `str.strip('_')`). -/
def stripTrail (l : List Char) : List Char :=
  (l.reverse.dropWhile (fun c => c == '_')).reverse

/-- Both-ends underscore strip, `str.strip('_')`. -/
def stripBoth (l : List Char) : List Char := stripTrail (stripLead l)

/-- Model of `sanitize_filename` on character lists: NFKC-normalize,
replace disallowed characters by `_`, collapse runs of `_`, strip `_`
from both ends, and truncate to 200 characters (`[:200]`). -/
def sanitizeCore (l : List Char) : List Char :=
  (stripBoth (collapseU (substitute (nfkc l)))).take 200

/-- Model of `sanitize_filename`. -/
def sanitize_filename (s : String) : String := ⟨sanitizeCore s.data⟩

/-- Split a character list at newline characters, as `str.split('\n')`. -/
def splitNl : List Char → List Char → List (List Char)
  | [], acc => [acc.reverse]
  | c :: rest, acc =>
    if c = '\n' then acc.reverse :: splitNl rest []
    else splitNl rest (c :: acc)

/-- Model of `str.strip()`: drop whitespace from both ends. -/
def trimChars (l : List Char) : List Char :=
  ((l.dropWhile Char.isWhitespace).reverse.dropWhile Char.isWhitespace).reverse

/-- The line preprocessing of `extract_pdf_title`:
`[ln.strip() for ln in text.split('\n') if ln.strip()]`. -/
def pageLines (text : String) : List String :=
  ((splitNl text.data []).map (fun l => (⟨trimChars l⟩ : String))).filter
    (fun s => !(s == ""))

/-- Model of `str.isdigit()` (ASCII digits). -/
def isDigitStr (s : String) : Bool := !(s == "") && s.data.all Char.isDigit

/-- The `第.*页` alternative of the header/footer regex: some `第` occurs
before some `页` in the line. -/
def diMatch (l : List Char) : Bool :=
  match l.dropWhile (fun c => !(c == '第')) with
  | [] => false
  | _ :: rest => rest.contains '页'

/-- Lowercasing, applied code-point-wise (`Char.toLower` is the identity
outside ASCII uppercase letters). -/
def lowerStr (s : String) : String := ⟨s.data.map Char.toLower⟩

/-- Substring occurrence test on character lists. -/
def hasSub (pat : List Char) : List Char → Bool
  | [] => pat.isEmpty
  | c :: rest => List.isPrefixOf pat (c :: rest) || hasSub pat rest

/-- The header/footer filter `re.search(r'page|第.*页|confidential', line,
re.I)`. -/
def headerFooterLike (line : String) : Bool :=
  let low := lowerStr line
  hasSub "page".data low.data ||
    hasSub "confidential".data low.data || diMatch low.data

/-- The acceptance test of the line heuristic: length within `[10, 200]`,
not purely numeric, and not matching the header/footer markers. -/
def validTitleLine (line : String) : Bool :=
  decide (10 ≤ line.length) && decide (line.length ≤ 200) &&
    !(isDigitStr line) && !(headerFooterLike line)

/-- Heuristic (a) on one page: the first of the page's first 10 nonempty
stripped lines passing `validTitleLine`. -/
def lineCandidate (text : String) : Option String :=
  ((pageLines text).take 10).find? validTitleLine

/-- One text span of a page together with its font size (the source reads
floats from the `"dict"` page layout; sizes are modelled as rationals,
which preserves all comparisons performed by the code). -/
structure Page where
  text : String
  spans : List (String × ℚ)

/-- Heuristic (c) on one page: the text of the first span of maximal font
size, provided that size exceeds 11 (`max` in Python keeps the first
maximal element). -/
def fontCandidate (spans : List (String × ℚ)) : Option String :=
  match spans with
  | [] => none
  | s :: rest =>
    let largest := rest.foldl (fun best x => if best.2 < x.2 then x else best) s
    if 11 < largest.2 then some largest.1 else none

/-- A PDF document as seen by `extract_pdf_title`: either opening/reading
it raises (`err`), or it yields a list of pages. -/
inductive PdfDoc where
  | err
  | ok (pages : List Page)

/-- The page loop of `extract_pdf_title`: for each page in order, first the
line heuristic, then the font-size heuristic, and only then the next
page. -/
def extractLoop : List Page → Option String
  | [] => none
  | p :: rest =>
    match lineCandidate p.text with
    | some t => some t
    | none =>
      match fontCandidate p.spans with
      | some t => some t
      | none => extractLoop rest

/-- Model of `extract_pdf_title`: `none` on a raised exception, otherwise
the page loop over the first two pages (`range(min(2, len(doc)))`). -/
def extract_pdf_title : PdfDoc → Option String
  | PdfDoc.err => none
  | PdfDoc.ok pages => extractLoop (pages.take 2)

/-- Reading of the spec sentence for claim C5, for comparison with
`extract_pdf_title`: heuristic (a) is scanned over the first two pages
first, and the font-size fallback (c) runs only if (a) yielded nothing on
both pages. -/
def extract_title_linesFirst : PdfDoc → Option String
  | PdfDoc.err => none
  | PdfDoc.ok pages =>
    ((pages.take 2).findSome? (fun p => lineCandidate p.text)).orElse
      (fun _ => (pages.take 2).findSome? (fun p => fontCandidate p.spans))

/-- Model of `os.path.join` for a directory and a file name. -/
def joinPath (dir f : String) : String := dir ++ "/" ++ f

/-- The candidate target paths of the collision loop of `rename_pdf_file`:
`dir/T.pdf`, `dir/T_1.pdf`, `dir/T_2.pdf`, … -/
def candName (dir T : String) : Nat → String
  | 0 => joinPath dir (T ++ ".pdf")
  | k + 1 => joinPath dir (T ++ "_" ++ toString (k + 1) ++ ".pdf")

/-- The `while os.path.exists(new_path)` loop of `rename_pdf_file`, with
`occ` modelling `os.path.exists` and an explicit fuel bound on the number
of iterations. -/
def renameLoop (occ : String → Bool) (dir newName : String) :
    String → Nat → Nat → String
  | newPath, _, 0 => newPath
  | newPath, counter, fuel + 1 =>
    if occ newPath then
      renameLoop occ dir newName
        (joinPath dir (newName ++ "_" ++ toString counter ++ ".pdf"))
        (counter + 1) fuel
    else newPath

/-- Model of `rename_pdf_file`: resolve the target path by the collision
loop starting from `dir/newName.pdf` with counter 1, then attempt
`os.rename` (whose success is modelled by `renameOk`; on an exception the
source logs and returns `False`).  Returns the success flag and the
resolved target path. -/
def rename_pdf_file (occ : String → Bool) (renameOk : Bool)
    (dir newName : String) (fuel : Nat) : Bool × String :=
  let newPath := joinPath dir (newName ++ ".pdf")
  (renameOk, renameLoop occ dir newName newPath 1 fuel)

/-- Per-file outcome of the `process_folder` loop, the keys of its stats
dict. -/
inductive RenameOutcome where
  | renamed
  | failed
  | skipped
  deriving DecidableEq

/-- The per-file body of `process_folder`: extract a title (`none`,
including the exception case, counts as skipped), sanitize it (an empty
result counts as skipped), then rename (a rename failure is the only
source of the failed outcome). -/
def processOneRename (doc : PdfDoc) (occ : String → Bool) (renameOk : Bool)
    (dir : String) (fuel : Nat) : RenameOutcome :=
  match extract_pdf_title doc with
  | none => RenameOutcome.skipped
  | some title =>
    let cleanTitle := sanitize_filename title
    if cleanTitle = "" then RenameOutcome.skipped
    else if (rename_pdf_file occ renameOk dir cleanTitle fuel).1 then
      RenameOutcome.renamed
    else RenameOutcome.failed

/-- Concrete input whose sanitized form is exactly 200 characters long and
ends in an underscore: 200 copies of `a!`. -/
def c6input : String := ⟨(List.replicate 200 ['a', '!']).flatten⟩

/-- First page of the C5 example: no line passes the line heuristic, but a
span of font size 14 exists. -/
def pageA : Page := ⟨"hi\nok\n42\n", [("LARGE HEADING", (14 : ℚ))]⟩

/-- Second page of the C5 example: its first line passes the line
heuristic. -/
def pageB : Page := ⟨"A Comparative Study of Widgets\nmore text\n", []⟩

/-- The two-page document of the C5 example. -/
def docC5 : PdfDoc := PdfDoc.ok [pageA, pageB]

/-- Occupancy predicate with `T.pdf` and `T_1.pdf` taken, for the C7
witness. -/
def occC7 : String → Bool := fun s => s == "d/T.pdf" || s == "d/T_1.pdf"

/-- Occupancy predicate where only the file's own current path `T.pdf` is
taken, for the C9 witness. -/
def occC9 : String → Bool := fun s => s == "d/T.pdf"

/-- No two adjacent underscores (the invariant established by the
collapsing step). -/
def noDU (a b : Char) : Prop := ¬(a = '_' ∧ b = '_')

end PDFBatchRename

open Api PDFBatchRead PDFBatchRename MDSummarize

namespace PDFBatchRename

theorem nfkcChar_of_allowed {c : Char} (h : isAllowed c = true) :
    nfkcChar c = [c] := by
  unfold nfkcChar
  split_ifs with h1 h2 h3 h4 h5
  · subst h1; exact absurd h (by decide)
  · subst h2; exact absurd h (by decide)
  · subst h3; exact absurd h (by decide)
  · subst h4; exact absurd h (by decide)
  · subst h5; exact absurd h (by decide)
  · rfl

theorem nfkc_of_allowed : ∀ {l : List Char},
    (∀ c ∈ l, isAllowed c = true) → nfkc l = l := by
  intro l h
  induction l with
  | nil => rfl
  | cons a r ih =>
    have ha : isAllowed a = true := h a (List.mem_cons_self a r)
    have hr : nfkc r = r := ih (fun c hc => h c (List.mem_cons_of_mem a hc))
    show nfkcChar a ++ nfkc r = a :: r
    rw [nfkcChar_of_allowed ha, hr]
    rfl

theorem substitute_allowed {l : List Char} {c : Char}
    (hc : c ∈ substitute l) : isAllowed c = true := by
  unfold substitute at hc
  rw [List.mem_map] at hc
  obtain ⟨a, _, rfl⟩ := hc
  by_cases ha : isAllowed a = true
  · rw [if_pos ha]; exact ha
  · rw [if_neg ha]; decide

theorem substitute_of_allowed : ∀ {l : List Char},
    (∀ c ∈ l, isAllowed c = true) → substitute l = l := by
  intro l h
  induction l with
  | nil => rfl
  | cons a r ih =>
    have ha := h a (List.mem_cons_self a r)
    show (if isAllowed a then a else '_') :: substitute r = a :: r
    rw [if_pos ha, ih (fun c hc => h c (List.mem_cons_of_mem a hc))]

theorem collapseAux_chain :
    ∀ (l : List Char) (p : Char), List.Chain' noDU (p :: collapseAux p l) := by
  intro l
  induction l with
  | nil => intro p; simp [collapseAux]
  | cons c r ih =>
    intro p
    by_cases hpc : p = '_' ∧ c = '_'
    · simp only [collapseAux, if_pos hpc]
      exact ih p
    · simp only [collapseAux, if_neg hpc]
      exact List.chain'_cons.mpr ⟨hpc, ih c⟩

theorem collapseU_chain (l : List Char) : List.Chain' noDU (collapseU l) := by
  cases l with
  | nil => simp [collapseU]
  | cons c r => exact collapseAux_chain r c

theorem collapseAux_of_chain :
    ∀ (l : List Char) (p : Char), List.Chain' noDU (p :: l) → collapseAux p l = l := by
  intro l
  induction l with
  | nil => intro p _; rfl
  | cons c r ih =>
    intro p h
    have h1 : noDU p c := (List.chain'_cons.mp h).1
    have h2 : List.Chain' noDU (c :: r) := (List.chain'_cons.mp h).2
    simp only [collapseAux, if_neg h1]
    rw [ih c h2]

theorem collapseU_of_chain {l : List Char} (h : List.Chain' noDU l) :
    collapseU l = l := by
  cases l with
  | nil => rfl
  | cons c r =>
    show c :: collapseAux c r = c :: r
    rw [collapseAux_of_chain r c h]

theorem collapseAux_subset :
    ∀ (l : List Char) (p c : Char), c ∈ collapseAux p l → c ∈ l := by
  intro l
  induction l with
  | nil => intro p c h; simp [collapseAux] at h
  | cons a r ih =>
    intro p c h
    by_cases hpa : p = '_' ∧ a = '_'
    · simp only [collapseAux, if_pos hpa] at h
      exact List.mem_cons_of_mem a (ih p c h)
    · simp only [collapseAux, if_neg hpa] at h
      rcases List.mem_cons.mp h with rfl | h'
      · exact List.mem_cons_self _ _
      · exact List.mem_cons_of_mem a (ih a c h')

theorem collapseU_subset {l : List Char} {c : Char} (h : c ∈ collapseU l) :
    c ∈ l := by
  cases l with
  | nil => simp [collapseU] at h
  | cons a r =>
    rcases List.mem_cons.mp h with rfl | h'
    · exact List.mem_cons_self _ _
    · exact List.mem_cons_of_mem a (collapseAux_subset r a c h')

theorem stripTrail_isPre (l : List Char) : stripTrail l <+: l := by
  have h : (stripTrail l).reverse <:+ l.reverse := by
    show ((l.reverse.dropWhile (fun c => c == '_')).reverse).reverse <:+ l.reverse
    rw [List.reverse_reverse]
    exact List.dropWhile_suffix _
  exact List.reverse_suffix.mp h

theorem dropWhileU_head (l : List Char) :
    (l.dropWhile (fun c => c == '_')).head? ≠ some '_' := by
  induction l with
  | nil => simp
  | cons c r ih =>
    by_cases hc : c = '_'
    · simpa [List.dropWhile_cons, hc] using ih
    · simp [List.dropWhile_cons, hc]

theorem dropWhileU_of_head {l : List Char} (h : l.head? ≠ some '_') :
    l.dropWhile (fun c => c == '_') = l := by
  cases l with
  | nil => rfl
  | cons c r =>
    have hc : ¬(c = '_') := fun e => h (by rw [e]; rfl)
    simp [List.dropWhile_cons, hc]

theorem stripLead_of_head {l : List Char} (h : l.head? ≠ some '_') :
    stripLead l = l := dropWhileU_of_head h

theorem stripTrail_of_getLast {l : List Char} (h : l.getLast? ≠ some '_') :
    stripTrail l = l := by
  show (l.reverse.dropWhile _).reverse = l
  rw [dropWhileU_of_head (by rw [List.head?_reverse]; exact h), List.reverse_reverse]

theorem head_of_isPre {l₁ l₂ : List Char} (h : l₁ <+: l₂) (hne : l₁ ≠ []) :
    l₁.head? = l₂.head? := by
  obtain ⟨t, rfl⟩ := h
  cases l₁ with
  | nil => exact absurd rfl hne
  | cons a r => rfl

theorem stripTrail_head {l : List Char} (h : l.head? ≠ some '_') :
    (stripTrail l).head? ≠ some '_' := by
  by_cases he : stripTrail l = []
  · rw [he]; simp
  · rw [head_of_isPre (stripTrail_isPre l) he]; exact h

theorem take200_head (l : List Char) : (l.take 200).head? = l.head? := by
  cases l <;> rfl

theorem chain'_stripLead {l : List Char} (h : List.Chain' noDU l) :
    List.Chain' noDU (stripLead l) :=
  h.suffix (List.dropWhile_suffix _)

theorem chain'_stripTrail {l : List Char} (h : List.Chain' noDU l) :
    List.Chain' noDU (stripTrail l) :=
  List.Chain'.prefix h (stripTrail_isPre l)

theorem chain'_take200 {l : List Char} (h : List.Chain' noDU l) :
    List.Chain' noDU (l.take 200) :=
  List.Chain'.prefix h ⟨l.drop 200, List.take_append_drop 200 l⟩

theorem mem_stripLead {l : List Char} {c : Char} (h : c ∈ stripLead l) :
    c ∈ l := (List.dropWhile_suffix _).subset h

theorem mem_stripTrail {l : List Char} {c : Char} (h : c ∈ stripTrail l) :
    c ∈ l := (stripTrail_isPre l).subset h

theorem sanitizeCore_allowed {l : List Char} {c : Char}
    (h : c ∈ sanitizeCore l) : isAllowed c = true := by
  unfold sanitizeCore stripBoth at h
  exact substitute_allowed
    (collapseU_subset (mem_stripLead (mem_stripTrail (List.take_subset 200 _ h))))

theorem sanitizeCore_chain (l : List Char) :
    List.Chain' noDU (sanitizeCore l) :=
  chain'_take200 (chain'_stripTrail (chain'_stripLead (collapseU_chain _)))

theorem sanitizeCore_head (l : List Char) :
    (sanitizeCore l).head? ≠ some '_' := by
  unfold sanitizeCore stripBoth
  rw [take200_head]
  exact stripTrail_head (dropWhileU_head _)

theorem sanitizeCore_len (l : List Char) : (sanitizeCore l).length ≤ 200 :=
  List.length_take_le _ _

theorem sanitizeCore_idem {l : List Char}
    (h : (sanitizeCore l).getLast? ≠ some '_') :
    sanitizeCore (sanitizeCore l) = sanitizeCore l := by
  have hall : ∀ c ∈ sanitizeCore l, isAllowed c = true :=
    fun c hc => sanitizeCore_allowed hc
  have h1 : nfkc (sanitizeCore l) = sanitizeCore l := nfkc_of_allowed hall
  have h2 : substitute (sanitizeCore l) = sanitizeCore l := substitute_of_allowed hall
  have h3 : collapseU (sanitizeCore l) = sanitizeCore l :=
    collapseU_of_chain (sanitizeCore_chain l)
  have h4 : stripLead (sanitizeCore l) = sanitizeCore l :=
    stripLead_of_head (sanitizeCore_head l)
  have h5 : stripTrail (sanitizeCore l) = sanitizeCore l := stripTrail_of_getLast h
  show (stripBoth (collapseU (substitute (nfkc (sanitizeCore l))))).take 200 =
    sanitizeCore l
  rw [h1, h2, h3]
  unfold stripBoth
  rw [h4, h5]
  exact List.take_of_length_le (sanitizeCore_len l)

end PDFBatchRename

theorem renameLoop_eq_cand (occ : String → Bool) (dir T : String) (k : Nat)
    (hfree : occ (candName dir T k) = false)
    (hocc : ∀ j, j < k → occ (candName dir T j) = true) :
    ∀ fuel i, i ≤ k → k - i < fuel →
      renameLoop occ dir T (candName dir T i) (i + 1) fuel = candName dir T k := by
  intro fuel
  induction fuel with
  | zero => intro i _ hf; exact absurd hf (Nat.not_lt_zero _)
  | succ fuel ih =>
    intro i hik hf
    by_cases hi : i = k
    · subst hi
      simp [renameLoop, hfree]
    · have hlt : i < k := Nat.lt_of_le_of_ne hik hi
      have hocc' := hocc i hlt
      simp only [renameLoop, hocc', if_true]
      exact ih (i + 1) hlt (by omega)

/-- C1: if the derived `.md` artifact already exists, `process_single_file`
returns the skipped outcome, performs no parse, API call, or write, and
leaves the artifact's content unchanged. -/
theorem skip_when_artifact_exists (env : Env) (c : String) :
    process_single_file env (MdFileState.present c) =
      (Outcome.skipped, MdFileState.present c, ([] : List Eff)) := rfl

/-- C2 counterexample: with parsing and the API succeeding but the second
`write` call failing after `open(md_path, "w")` created the file, the
outcome is failed and yet a (partially written) derived file now exists,
contradicting the claim that no derived output file is created on a
Failed outcome. -/
theorem failed_write_leaves_partial_file :
    (process_single_file envC2 MdFileState.absent).1 = Outcome.failed ∧
      (process_single_file envC2 MdFileState.absent).2.1 ≠ MdFileState.absent := by
  decide

/-- C2 amended: on a run over an absent artifact, the derived file exists
afterwards iff the outcome is success, or the run reached the write step
and the write sequence failed strictly after the file was opened (in which
case the outcome is failed but a partial file remains).  In particular
parse failures, empty extractions, API failures and open failures leave no
file behind. -/
theorem artifact_presence_characterization (env : Env) :
    ((process_single_file env MdFileState.absent).2.1 ≠ MdFileState.absent) ↔
      ((process_single_file env MdFileState.absent).1 = Outcome.success ∨
        (reachesWrite env = true ∧ ∃ k, env.writeBeh = WriteBeh.failMid k)) := by
  unfold process_single_file reachesWrite
  cases hp : parse_pdf env.pages with
  | none => simp
  | some text =>
    by_cases ht : text = ""
    · simp [ht]
    · simp only [if_neg ht]
      cases hs : summarize_text env.transport text with
      | none => simp
      | some summary =>
        by_cases hsum : summary = ""
        · simp [hsum]
        · simp only [if_neg hsum, hsum]
          cases hw : env.writeBeh with
          | ok => simp
          | failOpen => simp
          | failMid k => simp [hsum]

/-- C3 counterexample: `batch_process_pdfs` on a nonexistent root directory
does not abort with a configuration error; `os.walk` yields nothing and the
run completes normally with all counters at zero. -/
theorem missing_root_completes_normally :
    batch_process_pdfs ⟨false, ["a.pdf"]⟩ (fun _ => envDefault)
        (fun _ => MdFileState.absent) = RunResult.completed ⟨0, 0, 0⟩ ∧
      batch_process_pdfs ⟨false, ["a.pdf"]⟩ (fun _ => envDefault)
        (fun _ => MdFileState.absent) ≠ RunResult.configError := by
  decide

/-- C3 amended: only the aggregator's `main` performs pre-flight checks:
it aborts before any processing when the directory is missing, and its
API-key guard fires only on the literal `"your-api-key-here"`, so the
shipped placeholder `"your-api-key"` passes the check; the summarizer
batch tool performs no configuration check at all and completes normally
with zero counts on a missing root. -/
theorem preflight_checks_characterization :
    (∀ (files : List String) (envOf : String → Env) (stOf : String → MdFileState),
      batch_process_pdfs ⟨false, files⟩ envOf stOf = RunResult.completed ⟨0, 0, 0⟩) ∧
    (∀ (key : String) (files : List (String × Option String))
        (tr : List Char → Api.ApiBehavior),
      MDSummarize.main false key files tr = MainResult.errDir) ∧
    (∀ (files : List (String × Option String)) (tr : List Char → Api.ApiBehavior),
      MDSummarize.main true "your-api-key-here" files tr = MainResult.errKey) ∧
    (∀ tr : List Char → Api.ApiBehavior,
      MDSummarize.main true "your-api-key" [] tr = MainResult.noFiles) := by
  refine ⟨fun files envOf stOf => rfl, fun key files tr => rfl,
    fun files tr => rfl, fun tr => rfl⟩

/-- C4 counterexample: `summarize_text` of the summarizer script never
consults the HTTP status code, so a non-2xx response whose body happens to
carry the expected reply field is returned as a successful (non-absent)
result, contradicting the claim that every non-2xx status yields an
empty/absent result. -/
theorem summarize_text_ignores_status :
    PDFBatchRead.summarize_text
        (fun _ => Api.ApiBehavior.respond 500 (Api.ApiBody.wellFormed "oops"))
        "some text" ≠ none := by
  decide

/-- C4 amended: `call_llm_api` returns the empty string on timeouts,
connection errors, 4xx/5xx statuses (via `raise_for_status`), and on a
missing reply field (`KeyError`, caught) of any other status; but a body
whose field extraction raises a non-`KeyError` exception (e.g.
`IndexError` for `{"choices": []}`) propagates uncaught out of
`call_llm_api` instead of yielding an empty result.  `summarize_text`
(bare `except Exception`) returns `none` on timeouts, connection errors
and on both malformed body kinds, but ignores the status code entirely,
returning the reply field of any response that has one. -/
theorem api_failure_modes :
    (∀ p : String, call_llm_api (fun _ => Api.ApiBehavior.timeout) p = Except.ok "") ∧
    (∀ p : String, call_llm_api (fun _ => Api.ApiBehavior.connError) p = Except.ok "") ∧
    (∀ (p : String) (s : Nat) (b : Api.ApiBody), 400 ≤ s → s ≤ 599 →
      call_llm_api (fun _ => Api.ApiBehavior.respond s b) p = Except.ok "") ∧
    (∀ (p : String) (s : Nat), ¬(400 ≤ s ∧ s ≤ 599) →
      call_llm_api (fun _ => Api.ApiBehavior.respond s Api.ApiBody.missingField) p =
        Except.ok "") ∧
    (∀ (p : String) (s : Nat), ¬(400 ≤ s ∧ s ≤ 599) →
      call_llm_api (fun _ => Api.ApiBehavior.respond s Api.ApiBody.badShape) p =
        Except.error ()) ∧
    (∀ t : String, PDFBatchRead.summarize_text (fun _ => Api.ApiBehavior.timeout) t = none) ∧
    (∀ t : String, PDFBatchRead.summarize_text (fun _ => Api.ApiBehavior.connError) t = none) ∧
    (∀ (t : String) (s : Nat),
      PDFBatchRead.summarize_text
        (fun _ => Api.ApiBehavior.respond s Api.ApiBody.missingField) t = none) ∧
    (∀ (t : String) (s : Nat),
      PDFBatchRead.summarize_text
        (fun _ => Api.ApiBehavior.respond s Api.ApiBody.badShape) t = none) ∧
    (∀ (t c : String) (s : Nat),
      PDFBatchRead.summarize_text
        (fun _ => Api.ApiBehavior.respond s (Api.ApiBody.wellFormed c)) t = some c) := by
  refine ⟨fun p => rfl, fun p => rfl, ?_, ?_, ?_, fun t => rfl, fun t => rfl,
    fun t s => rfl, fun t s => rfl, fun t c s => rfl⟩
  · intro p s b h1 h2
    show (if 400 ≤ s ∧ s ≤ 599 then Except.ok "" else _) = Except.ok ""
    rw [if_pos ⟨h1, h2⟩]
  · intro p s h
    show (if 400 ≤ s ∧ s ≤ 599 then Except.ok "" else _) = Except.ok ""
    rw [if_neg h]
  · intro p s h
    show (if 400 ≤ s ∧ s ≤ 599 then Except.ok "" else _) = Except.error ()
    rw [if_neg h]

theorem api_failure_modes_inst :
    call_llm_api (fun _ => Api.ApiBehavior.respond 200 Api.ApiBody.badShape)
      "hello" = Except.error () :=
  api_failure_modes.2.2.2.2.1 "hello" 200 (by decide)

/-- C5 counterexample: on a two-page document where no line of page 1
passes the line heuristic but page 1 has a span of font size 14, while
page 2's first line does pass the line heuristic, `extract_pdf_title`
returns page 1's font-size candidate — the font fallback runs on page 1
before the line heuristic is ever tried on page 2, contradicting the
claimed ordering in which the fallback runs only if the line scan over
both pages yields nothing. -/
theorem font_fallback_preempts_second_page :
    extract_pdf_title docC5 = some "LARGE HEADING" ∧
      extract_title_linesFirst docC5 = some "A Comparative Study of Widgets" ∧
      extract_pdf_title docC5 ≠ extract_title_linesFirst docC5 := by
  decide

/-- C5 amended: the two heuristics are interleaved per page: on each of
the first two pages in order, first the line heuristic (over that page's
first 10 nonempty stripped lines), then the font-size fallback on the same
page, and only then the next page; pages beyond the first two are
ignored. -/
theorem extract_title_per_page_order (p1 p2 : Page) (rest : List Page) :
    extract_pdf_title (PdfDoc.ok (p1 :: p2 :: rest)) =
      ((lineCandidate p1.text).orElse (fun _ => fontCandidate p1.spans)).orElse
        (fun _ => (lineCandidate p2.text).orElse (fun _ => fontCandidate p2.spans)) := by
  show extractLoop [p1, p2] = _
  cases h1 : lineCandidate p1.text <;> cases h2 : fontCandidate p1.spans <;>
    cases h3 : lineCandidate p2.text <;> cases h4 : fontCandidate p2.spans <;>
      simp [extractLoop, h1, h2, h3, h4, Option.orElse]

set_option maxRecDepth 8000 in
/-- C6 counterexample: sanitization is not idempotent.  For 200 copies of
`a!`, the sanitized form is exactly 200 characters and ends in an
underscore (the truncation to 200 characters happens after the
underscore-strip), so sanitizing it again strips that trailing underscore
and yields a shorter, different string. -/
theorem sanitize_not_idempotent_at_truncation :
    sanitize_filename (sanitize_filename c6input) ≠ sanitize_filename c6input := by
  decide

/-- C6 amended: sanitization is idempotent on every input whose sanitized
form does not end in an underscore; only the final 200-character
truncation (applied after the strip step) can produce a trailing
underscore, which a second sanitization pass then removes. -/
theorem sanitize_filename_idem (s : String)
    (h : (sanitize_filename s).data.getLast? ≠ some '_') :
    sanitize_filename (sanitize_filename s) = sanitize_filename s :=
  congrArg String.mk (sanitizeCore_idem h)

theorem sanitize_filename_idem_inst :
    sanitize_filename (sanitize_filename "hello world") =
      sanitize_filename "hello world" :=
  sanitize_filename_idem "hello world" (by decide)

/-- C7: the collision loop of `rename_pdf_file` resolves to the first free
name in the sequence `T.pdf`, `T_1.pdf`, `T_2.pdf`, …: if every candidate
before index `k` is occupied and candidate `k` is free, the chosen target
path is candidate `k`, for arbitrarily long occupied chains. -/
theorem rename_resolves_first_free (occ : String → Bool) (renameOk : Bool)
    (dir T : String) (k fuel : Nat)
    (hocc : ∀ j, j < k → occ (candName dir T j) = true)
    (hfree : occ (candName dir T k) = false)
    (hfuel : k < fuel) :
    (rename_pdf_file occ renameOk dir T fuel).2 = candName dir T k :=
  renameLoop_eq_cand occ dir T k hfree hocc fuel 0 (Nat.zero_le k) (by omega)

theorem rename_resolves_first_free_inst :
    (rename_pdf_file occC7 true "d" "T" 3).2 = candName "d" "T" 2 :=
  rename_resolves_first_free occC7 true "d" "T" 2 3 (by decide) (by decide)
    (by decide)

/-- C8: the prompt built by `summarize_text` is the fixed template followed
by exactly the first 65535 characters of the extracted text: the part of
the prompt after the template is `text.take 65535`, which is a prefix of
the text of length `min 65535 (length text)` — a deterministic prefix cut
with no other transformation. -/
theorem prompt_prefix_cut (l : List Char) :
    (buildPrompt l).take promptPrefix.data.length = promptPrefix.data ∧
      (buildPrompt l).drop promptPrefix.data.length = l.take 65535 ∧
      l.take 65535 <+: l ∧
      (l.take 65535).length = min 65535 l.length :=
  ⟨List.take_left _ _, List.drop_left _ _,
    ⟨l.drop 65535, List.take_append_drop 65535 l⟩, List.length_take 65535 l⟩

/-- C9: when `rename_pdf_file` is called with the base name the file
already has, the existence check finds the file's own path `dir/T.pdf`
occupied, so (with `dir/T_1.pdf` free) the resolved target is
`dir/T_1.pdf`, which differs from the file's current, already-correct
path — re-running the rename batch renames such files again. -/
theorem rename_self_collision (occ : String → Bool) (renameOk : Bool)
    (dir T : String) (fuel : Nat)
    (hself : occ (candName dir T 0) = true)
    (hfree : occ (candName dir T 1) = false)
    (hfuel : 1 < fuel) :
    (rename_pdf_file occ renameOk dir T fuel).2 = candName dir T 1 ∧
      candName dir T 1 ≠ candName dir T 0 := by
  constructor
  · exact renameLoop_eq_cand occ dir T 1 hfree
      (fun j hj => by
        have hj0 : j = 0 := by omega
        subst hj0; exact hself)
      fuel 0 (Nat.zero_le 1) (by omega)
  · have e1 : candName dir T 1 = dir ++ "/" ++ (T ++ "_" ++ toString 1 ++ ".pdf") := rfl
    have e0 : candName dir T 0 = dir ++ "/" ++ (T ++ ".pdf") := rfl
    intro h
    rw [e1, e0] at h
    have hlen := congrArg String.length h
    simp only [String.length_append] at hlen
    have c1 : ("/" : String).length = 1 := rfl
    have c2 : ("_" : String).length = 1 := rfl
    have c3 : (".pdf" : String).length = 4 := rfl
    have c4 : (toString (1 : Nat) : String).length = 1 := rfl
    rw [c1, c2, c3, c4] at hlen
    omega

theorem rename_self_collision_inst :
    (rename_pdf_file occC9 true "d" "T" 2).2 = candName "d" "T" 1 ∧
      candName "d" "T" 1 ≠ candName "d" "T" 0 :=
  rename_self_collision occC9 true "d" "T" 2 (by decide) (by decide) (by decide)

/-- C10: in the rename batch, a document whose opening or parsing raises is
counted as skipped (the exception is caught inside `extract_pdf_title`,
which returns no title), and the failed outcome occurs exactly when a
title was extracted, sanitized to a nonempty name, and the rename step
itself failed. -/
theorem rename_outcomes_characterization :
    (∀ (occ : String → Bool) (renameOk : Bool) (dir : String) (fuel : Nat),
      processOneRename PdfDoc.err occ renameOk dir fuel = RenameOutcome.skipped) ∧
    (∀ (doc : PdfDoc) (occ : String → Bool) (renameOk : Bool) (dir : String)
        (fuel : Nat),
      processOneRename doc occ renameOk dir fuel = RenameOutcome.failed ↔
        (renameOk = false ∧
          ∃ t, extract_pdf_title doc = some t ∧ sanitize_filename t ≠ "")) := by
  constructor
  · intro occ renameOk dir fuel; rfl
  · intro doc occ renameOk dir fuel
    unfold processOneRename
    cases he : extract_pdf_title doc with
    | none => simp
    | some t =>
      by_cases hct : sanitize_filename t = ""
      · simp [hct]
      · simp only [if_neg hct]
        cases renameOk with
        | true => simp [rename_pdf_file]
        | false => simp [rename_pdf_file, hct]
